import Mathlib

/-!
Verification of the actors-cpp runtime against its specification.

The definitions below are a shallow embedding of the C++ sources:
`include/actors/BQueue.hpp` (the mailbox), `src/Actor.cpp` (dispatch,
send, fast_send, reply, the worker loop), `src/Group.cpp`,
`src/Manager.cpp` and `include/actors/remote/ZmqReceiver.hpp`.
Machine pointers (`Actor*`) are modelled as numeric identifiers,
handler pointers and `std::type_index` values as numbers, and the
mutex/condition-variable plumbing is elided: every operation modelled
here runs under the corresponding lock in the source, so its body is a
sequential state transformation.  Fatal `assert`s in the source are
modelled as `Except.error` contract errors; an out-of-bounds
`std::vector::operator[]` access (undefined behavior) is modelled as
`Except.error` as well.
-/

/-! ## Mailbox: `BQueue` from `include/actors/BQueue.hpp`

A bounded ring (`boost::circular_buffer cb_` of capacity `cap`) plus an
unbounded overflow deque (`std::deque overflow_`).  `push` and `pop`
run under the queue mutex; the condition-variable wait in `pop` is
modelled by returning `none` when both buffers are empty (the caller
would block).
-/

/-- State of a `BQueue<T>`: capacity of the ring, ring contents
(front first), overflow contents (front first). -/
structure BQueue (α : Type) where
  cap : Nat
  ring : List α
  overflow : List α
deriving DecidableEq, Repr

/-- `cb_.full()`: the circular buffer is full when its size equals its
capacity. -/
def BQueue.full (q : BQueue α) : Bool :=
  q.ring.length == q.cap

/-- Abstraction: the queue contents in FIFO order, ring before overflow. -/
def BQueue.toList (q : BQueue α) : List α :=
  q.ring ++ q.overflow

/-- `BQueue::push`: if the overflow is non-empty or the ring is full,
append to the overflow deque, else append to the ring. -/
def BQueue.push (q : BQueue α) (x : α) : BQueue α :=
  if !q.overflow.isEmpty || q.full then
    { q with overflow := q.overflow ++ [x] }
  else
    { q with ring := q.ring ++ [x] }

/-- `BQueue::pop`: wait until a buffer is non-empty (modelled as `none`
when both are empty), remove the ring head if the ring is non-empty,
else the overflow head, and return the removed element together with
the `last` flag `cb_.empty() && overflow_.empty()` computed after the
removal. -/
def BQueue.pop (q : BQueue α) : Option (α × Bool × BQueue α) :=
  match q.ring with
  | x :: rs => some (x, rs.isEmpty && q.overflow.isEmpty, { q with ring := rs })
  | [] =>
    match q.overflow with
    | y :: os => some (y, os.isEmpty, { q with overflow := os })
    | [] => none

/-- `BQueue(n)`: a freshly constructed queue, both buffers empty. -/
def BQueue.empty (α : Type) (cap : Nat) : BQueue α :=
  ⟨cap, [], []⟩

/-- A producer/consumer operation on the mailbox. -/
inductive QOp (α : Type) where
  | push (x : α)
  | pop
deriving DecidableEq, Repr

/-- The elements pushed by a sequence of operations, in order. -/
def pushedList {α : Type} : List (QOp α) → List α
  | [] => []
  | QOp.push x :: ops => x :: pushedList ops
  | QOp.pop :: ops => pushedList ops

/-- Run a sequence of pushes and pops against a queue, collecting the
popped elements in order.  Returns `none` when a pop would block
forever (both buffers empty with no pending producer in this trace). -/
def runOps {α : Type} : BQueue α → List (QOp α) → Option (BQueue α × List α)
  | q, [] => some (q, [])
  | q, QOp.push x :: ops => runOps (q.push x) ops
  | q, QOp.pop :: ops =>
    match q.pop with
    | none => none
    | some (m, _, q') =>
      match runOps q' ops with
      | none => none
      | some (q'', popped) => some (q'', m :: popped)

/-! ## Handler dispatch: `Actor::call_handler` from `src/Actor.cpp`

`handler_cache` is a `std::vector<generic_handler_t>` of length
`ACTOR_HANDLER_CACHE_SIZE = 512` and `dont_have_handler` a
`std::vector<bool>` of the same length; `handlers` is a
`std::map<std::type_index, generic_handler_t>`, modelled as an
association list.  The source indexes `handler_cache[id]` and
`dont_have_handler[id]` without any bounds check; indexing a
`std::vector` outside `[0, size)` is undefined behavior, modelled here
as `Except.error ()`.
-/

/-- A handler pointer (`generic_handler_t`), by identity. -/
abbrev Handler := Nat

/-- A runtime type identity (`std::type_index`). -/
abbrev TypeIndex := Nat

/-- `ACTOR_HANDLER_CACHE_SIZE` from `include/actors/Actor.hpp`. -/
def ACTOR_HANDLER_CACHE_SIZE : Nat := 512

/-- A message as seen by dispatch: its integer identity
(`get_message_id()`, the `N` of `Message_N<N>`) and its runtime type
(`typeid(*m)`). -/
structure DMsg where
  id : Nat
  ty : TypeIndex
deriving DecidableEq, Repr

/-- The dispatch-relevant state of an actor: the dense cache, the
negative flags, and the handler table. -/
structure DispatchState where
  handler_cache : Fin ACTOR_HANDLER_CACHE_SIZE → Option Handler
  dont_have_handler : Fin ACTOR_HANDLER_CACHE_SIZE → Bool
  handlers : List (TypeIndex × Handler)

/-- Result of one dispatch: either some handler was invoked, or
`call_handler` returned `false` and the caller falls through to the
`process_message` override. -/
inductive DispatchOutcome where
  | invoked (f : Handler)
  | noHandler
deriving DecidableEq, Repr

/-- `handlers.find(midx)`: look up a handler by runtime type identity. -/
def findHandler (hs : List (TypeIndex × Handler)) (ty : TypeIndex) : Option Handler :=
  (hs.find? (fun p => p.1 == ty)).map (fun p => p.2)

/-- `Actor::call_handler`, translated line by line: read
`handler_cache[id]` (out of bounds when `id ≥ 512`: `.error`), invoke
on a hit; else consult `dont_have_handler[id]`; else look up the table
by runtime type, memoizing the hit in the cache or setting the
negative flag on a miss. -/
def call_handler (s : DispatchState) (m : DMsg) :
    Except Unit (DispatchOutcome × DispatchState) :=
  if h : m.id < ACTOR_HANDLER_CACHE_SIZE then
    match s.handler_cache ⟨m.id, h⟩ with
    | some f => .ok (.invoked f, s)
    | none =>
      if s.dont_have_handler ⟨m.id, h⟩ then
        .ok (.noHandler, s)
      else
        match findHandler s.handlers m.ty with
        | none =>
          .ok (.noHandler,
            { s with dont_have_handler :=
                Function.update s.dont_have_handler ⟨m.id, h⟩ true })
        | some f =>
          .ok (.invoked f,
            { s with handler_cache :=
                Function.update s.handler_cache ⟨m.id, h⟩ (some f) })
  else
    .error ()

/-- The slow path by itself: what the handler-table lookup by runtime
type identity selects for a message (the spec's reference behavior for
the cache). -/
def tableDispatch (hs : List (TypeIndex × Handler)) (m : DMsg) : DispatchOutcome :=
  match findHandler hs m.ty with
  | some f => .invoked f
  | none => .noHandler

/-- Dispatch a sequence of messages through `call_handler`, threading
the cache state. -/
def dispatchMany : DispatchState → List DMsg →
    Except Unit (List DispatchOutcome × DispatchState)
  | s, [] => .ok ([], s)
  | s, m :: rest =>
    match call_handler s m with
    | .error e => .error e
    | .ok (o, s') =>
      match dispatchMany s' rest with
      | .error e => .error e
      | .ok (os, s'') => .ok (o :: os, s'')

/-- The dispatch state of a freshly constructed actor: cache entries
all null, negative flags all false (`Actor::Actor`), with a given
handler table. -/
def initDispatchState (hs : List (TypeIndex × Handler)) : DispatchState :=
  { handler_cache := fun _ => none
    dont_have_handler := fun _ => false
    handlers := hs }

/-! ## Actor envelope operations from `src/Actor.cpp`

`Actor*` references are modelled as numeric identifiers; `nullptr` is
`none`.  The fatal `assert`s on message reuse, missing return address
and fast-send-to-self are modelled as `ContractError`s.
-/

/-- A reference to an actor (an `Actor*`). -/
abbrev ActorId := Nat

/-- A `Message`: its identity plus the mutable envelope fields
`sender`, `destination`, `is_fast`, `last` from
`include/actors/Message.hpp`. -/
structure AMsg where
  id : Nat
  sender : Option ActorId
  destination : Option ActorId
  is_fast : Bool
  last : Bool
deriving DecidableEq, Repr

/-- The per-actor state touched by `send`, `fast_send`, `reply` and the
worker loop.  `init_ran` and `end_ran` record that the `init()` and
`end()` lifecycle hooks have been invoked. -/
structure ActorState where
  self : ActorId
  terminated : Bool
  reply_to : Option ActorId
  msg_cnt : Nat
  using_fast_send : Bool
  reply_message : Option AMsg
  is_part_of_group : Bool
  group : Option ActorId
  init_ran : Bool
  end_ran : Bool
deriving DecidableEq, Repr

/-- A fatal `assert` in the source. -/
inductive ContractError where
  | messageReuse
  | noReturnAddress
  | selfFastSend
deriving DecidableEq, Repr

/-- Which mailbox a `send` pushes to. -/
inductive QueueTarget where
  | own
  | groupMailbox (g : Option ActorId)
deriving DecidableEq, Repr

/-- Observable result of `Actor::send`: either the terminated-actor
silent drop (the message is returned untouched), or an enqueue of the
stamped message to a mailbox. -/
inductive SendOutcome where
  | dropped (m : AMsg)
  | enqueued (t : QueueTarget) (m : AMsg)
deriving DecidableEq, Repr

/-- `Actor::send`: return immediately if terminated; assert the message
was never sent before (`destination == nullptr`); stamp
`is_fast := false`, `last := false`, `sender`, `destination := this`;
push to the group's mailbox when part of a group, else to our own. -/
def Actor.send (a : ActorState) (m : AMsg) (sender : Option ActorId) :
    Except ContractError SendOutcome :=
  if a.terminated then .ok (.dropped m)
  else if m.destination.isSome then .error .messageReuse
  else
    let m' := { m with is_fast := false, last := false,
                       sender := sender, destination := some a.self }
    if a.is_part_of_group then .ok (.enqueued (.groupMailbox a.group) m')
    else .ok (.enqueued .own m')

/-- Effect of one `Actor::reply` call: the reply is captured into
`reply_message` (fast path), or `send(r, this)` is invoked on the
`reply_to` actor (slow path). -/
inductive ReplyEffect where
  | captured (r : AMsg)
  | sendCall (dest : ActorId) (r : AMsg) (s : Option ActorId)
deriving DecidableEq, Repr

/-- `Actor::reply`: when `using_fast_send`, stamp `r.sender := this`
and store `r` in `reply_message`; otherwise assert `reply_to` is set
and invoke `reply_to->send(r, this)`. -/
def Actor.reply (a : ActorState) (r : AMsg) :
    Except ContractError (ActorState × ReplyEffect) :=
  if a.using_fast_send then
    let r' := { r with sender := some a.self }
    .ok ({ a with reply_message := some r' }, .captured r')
  else
    match a.reply_to with
    | none => .error .noReturnAddress
    | some dest => .ok (a, .sendCall dest r (some a.self))

/-- Run the `reply` calls a handler body makes, in order, threading the
actor state. -/
def runReplies : ActorState → List AMsg → Except ContractError ActorState
  | a, [] => .ok a
  | a, r :: rs =>
    match Actor.reply a r with
    | .error e => .error e
    | .ok (a', _) => runReplies a' rs

/-- Result of `Actor::fast_send`: the actor state after the call, the
stamped message, whether the handler (or the `process_message`
fallback) was invoked, and the returned `unique_ptr` (the final
`reply_message`). -/
structure FastSendOut where
  state : ActorState
  stamped : AMsg
  dispatched : Bool
  reply : Option AMsg
deriving DecidableEq, Repr

/-- `Actor::fast_send`: assert `this != sender`; stamp
`m.sender := sender`, `is_fast := true`, `last := true`; clear
`reply_message`, set `using_fast_send := true`, increment `msg_cnt`;
if terminated return the (null) `reply_message` without dispatching;
otherwise run the handler body — modelled by the list of `reply` calls
it makes — and return the final `reply_message`. -/
def Actor.fast_send (a : ActorState) (m : AMsg) (s : Option ActorId)
    (hreplies : List AMsg) : Except ContractError FastSendOut :=
  if s = some a.self then .error .selfFastSend
  else
    let m' := { m with sender := s, is_fast := true, last := true }
    let a1 := { a with reply_message := none, using_fast_send := true,
                       msg_cnt := a.msg_cnt + 1 }
    if a1.terminated then
      .ok { state := a1, stamped := m', dispatched := false,
            reply := a1.reply_message }
    else
      match runReplies a1 hreplies with
      | .error e => .error e
      | .ok a2 =>
        .ok { state := a2, stamped := m', dispatched := true,
              reply := a2.reply_message }

/-! ## Worker loop: `Actor::operator()` from `src/Actor.cpp`

`process_message_internal` increments `msg_cnt`, clears
`using_fast_send` and runs `call_handler`/`process_message`; the
effect of the user handler body on the actor state is abstracted as a
function `d`.  The loop pops messages from the (finite trace of the)
mailbox; when the trace is exhausted the loop is still blocked in
`pop` (`exited = false`).
-/

/-- `Actor::process_message_internal` with the user handler body
abstracted as `d`. -/
def process_message_internal (d : ActorState → AMsg → ActorState)
    (a : ActorState) (m : AMsg) : ActorState :=
  d { a with msg_cnt := a.msg_cnt + 1, using_fast_send := false } m

/-- One iteration of the worker loop before the break test: stamp
`m.last` from the pop result, set `reply_to := m.sender`, dispatch. -/
def dispatchStep (d : ActorState → AMsg → ActorState)
    (a : ActorState) (m : AMsg) (rest : List AMsg) : ActorState :=
  process_message_internal d { a with reply_to := m.sender }
    { m with last := rest.isEmpty }

/-- Result of running the worker loop on a finite mailbox trace. -/
structure LoopOut where
  state : ActorState
  dispatched : List AMsg
  exited : Bool
deriving DecidableEq, Repr

/-- The worker loop of `Actor::operator()`: pop, set `reply_to`,
remember whether the message has identity 5 (Shutdown), dispatch,
break when Shutdown or `terminated`; after the break set
`terminated := true` and run the `end` hook. -/
def workerLoop (d : ActorState → AMsg → ActorState) :
    ActorState → List AMsg → LoopOut
  | a, [] => { state := a, dispatched := [], exited := false }
  | a, m :: rest =>
    let a2 := dispatchStep d a m rest
    if m.id == 5 || a2.terminated then
      { state := { a2 with terminated := true, end_ran := true },
        dispatched := [m], exited := true }
    else
      let out := workerLoop d a2 rest
      { out with dispatched := m :: out.dispatched }

/-- `Actor::operator()`: record the thread id (elided), run the `init`
hook, then enter the worker loop. -/
def actorRun (d : ActorState → AMsg → ActorState)
    (a : ActorState) (q : List AMsg) : LoopOut :=
  workerLoop d { a with init_ran := true } q

/-! ## Group: `src/Group.cpp`

A `Group` holds an insertion-ordered member list (`Group::add` appends
with `push_back`).  Its `start_handler` and `shutdown_handler` run on
the group's thread; their observable behavior is the sequence of
member-hook and `fast_send` calls they make, recorded as events.
-/

/-- An observable call made by a Group handler, in program order. -/
inductive GroupEvent where
  | memberInit (a : ActorId)
  | fastSendStart (a : ActorId) (sender : ActorId)
  | fastSendShutdown (a : ActorId) (sender : ActorId)
  | memberEnd (a : ActorId)
  | forwardMsg
deriving DecidableEq, Repr

/-- The Group state relevant to its handlers: its own identity and the
insertion-ordered member list. -/
structure GroupState where
  self : ActorId
  members : List ActorId
deriving DecidableEq, Repr

/-- `Group::add`: append the member to the insertion-ordered list
(`members.push_back(a)`). -/
def Group.add (g : GroupState) (a : ActorId) : GroupState :=
  { g with members := g.members ++ [a] }

/-- `Group::start_handler`: when the Start's sender is not the group
itself, for each member in insertion order run `member->init()` then
`member->fast_send(new Start(), this)`; otherwise forward the
message. -/
def Group.start_handler (g : GroupState) (msender : Option ActorId) :
    List GroupEvent :=
  if msender ≠ some g.self then
    g.members.flatMap (fun a => [.memberInit a, .fastSendStart a g.self])
  else
    [.forwardMsg]

/-- `Group::shutdown_handler`: when the Shutdown's sender is not the
group itself, for each member in insertion order run
`member->fast_send(new Shutdown(), this)` then `member->end()`;
otherwise forward the message. -/
def Group.shutdown_handler (g : GroupState) (msender : Option ActorId) :
    List GroupEvent :=
  if msender ≠ some g.self then
    g.members.flatMap (fun a => [.fastSendShutdown a g.self, .memberEnd a])
  else
    [.forwardMsg]

/-! ## Manager thread placement: `src/Manager.cpp`

`Manager::manage` records `affinity`, `priority` and `priority_type`
on the actor.  `Manager::init`, after spawning the worker thread,
calls `pthread_setschedparam(handle, SCHED_FIFO, &sp)` with
`sp.sched_priority = actor->priority` exactly when
`actor->priority > 0`; a non-zero return is reported with `perror` and
the loop continues (non-fatal).
-/

/-- `SCHED_OTHER` (Linux scheduling policy 0). -/
def SCHED_OTHER : Int := 0

/-- `SCHED_FIFO` (Linux scheduling policy 1). -/
def SCHED_FIFO : Int := 1

/-- `SCHED_RR` (Linux scheduling policy 2). -/
def SCHED_RR : Int := 2

/-- The placement fields `Manager::manage` records on the actor. -/
structure ManagedActorRec where
  priority : Int
  priority_type : Int
deriving DecidableEq, Repr

/-- The recording part of `Manager::manage`:
`actor->priority = priority; actor->priority_type = priority_type`. -/
def Manager.manageRecord (priority priority_type : Int) : ManagedActorRec :=
  { priority := priority, priority_type := priority_type }

/-- The `pthread_setschedparam` call `Manager::init` makes for one
actor, as a `(policy, priority)` pair: issued with the hard-coded
policy `SCHED_FIFO` exactly when `actor->priority > 0`. -/
def Manager.initSchedCall (a : ManagedActorRec) : Option (Int × Int) :=
  if a.priority > 0 then some (SCHED_FIFO, a.priority) else none

/-- Outcome of the placement attempt in `Manager::init`: on a
`pthread_setschedparam` failure the code prints a diagnostic and
continues; there is no fatal path. -/
inductive PlacementOutcome where
  | notAttempted
  | applied
  | loggedFailure
deriving DecidableEq, Repr

/-- How `Manager::init` reacts to the success or failure of the
scheduling call: failure is logged, never fatal. -/
def Manager.schedOutcome (a : ManagedActorRec) (success : Bool) :
    PlacementOutcome :=
  match Manager.initSchedCall a with
  | none => .notAttempted
  | some _ => if success then .applied else .loggedFailure

/-! ## Remote receiver: `ZmqReceiver::handle_remote_message` from
`include/actors/remote/ZmqReceiver.hpp`

The JSON envelope carries `receiver`, `message_type`, the
`sender_actor`/`sender_endpoint` pair (null together exactly when the
sender is anonymous — the wire contract), and the nested `message`
document (opaque here).  `registry_` maps receiver names to local
actors; the serialization registry is modelled by the list of
registered wire names (`serialization::deserialize` returns null
exactly when the wire name is unregistered).
-/

/-- A parsed JSON envelope. -/
structure Envelope where
  receiver : String
  message_type : String
  sender : Option (String × String)
  payload : String
deriving DecidableEq, Repr

/-- The fields of a `msg::Reject`. -/
structure RejectMsgRec where
  message_type : String
  reason : String
  rejected_by : String
deriving DecidableEq, Repr

/-- `msg::Reject` derives `Message_N<9>`: its message identity is 9. -/
def RejectMsgRec.get_message_id (_ : RejectMsgRec) : Nat := 9

/-- The single action `handle_remote_message` performs for a frame. -/
inductive RemoteAction where
  | sendRejectTo (endpoint actorName : String) (reject : RejectMsgRec)
  | deliverTo (target : ActorId) (msg_type payload : String)
      (withReplyProxy : Bool)
  | dropFrame
deriving DecidableEq, Repr

/-- `registry_.find(receiver_name)`: look up the local actor registered
under a name. -/
def lookupActor (registry : List (String × ActorId)) (name : String) :
    Option ActorId :=
  (registry.find? (fun p => p.1 == name)).map (fun p => p.2)

/-- `serialization::deserialize` succeeds exactly when the wire name is
registered. -/
def deserializeRegistered (registered : List String) (msg_type : String) : Bool :=
  registered.contains msg_type

/-- `ZmqReceiver::handle_remote_message`: look up the receiver name; on
a miss send a Reject back when a sender is present, else drop the
frame; then deserialize the payload; on a miss send a Reject back when
a sender is present, else drop; otherwise perform exactly one
asynchronous `send` of the decoded message to the target, with a reply
proxy installed as sender when the frame named one. -/
def handle_remote_message (registry : List (String × ActorId))
    (registered : List String) (e : Envelope) : RemoteAction :=
  match lookupActor registry e.receiver with
  | none =>
    match e.sender with
    | some (sa, se) =>
      .sendRejectTo se sa
        { message_type := e.message_type
          reason := "Actor \x27" ++ e.receiver ++ "\x27 not found"
          rejected_by := e.receiver }
    | none => .dropFrame
  | some target =>
    if deserializeRegistered registered e.message_type then
      .deliverTo target e.message_type e.payload e.sender.isSome
    else
      match e.sender with
      | some (sa, se) =>
        .sendRejectTo se sa
          { message_type := e.message_type
            reason := "Unknown message type: " ++ e.message_type
            rejected_by := e.receiver }
      | none => .dropFrame

/-- The contents of the reply slot after a sequence of fast-path
`reply` calls, starting from a given slot value: each call overwrites
the slot with its argument stamped with the callee as sender. -/
def lastReply (self : ActorId) : List AMsg → Option AMsg → Option AMsg
  | [], cur => cur
  | r :: rs, _ => lastReply self rs (some { r with sender := some self })

/-! ## Theorems -/

/-- Pushing appends to the FIFO abstraction of the (ring, overflow)
pair. -/
theorem BQueue.toList_push {α : Type} (q : BQueue α) (x : α) :
    (q.push x).toList = q.toList ++ [x] := by
  unfold BQueue.push
  split
  · simp [BQueue.toList]
  · next h =>
    have hov : q.overflow = [] := by
      rcases hov : q.overflow with _ | ⟨y, os⟩
      · rfl
      · simp [hov] at h
    simp [BQueue.toList, hov]

/-- Popping removes the head of the FIFO abstraction, and the `last`
flag is true exactly when nothing is left. -/
theorem BQueue.pop_toList {α : Type} (q : BQueue α) (m : α) (l : Bool)
    (q' : BQueue α) (h : q.pop = some (m, l, q')) :
    q.toList = m :: q'.toList ∧ (l = true ↔ q'.toList = []) := by
  rcases hr : q.ring with _ | ⟨x, rs⟩
  · rcases ho : q.overflow with _ | ⟨y, os⟩
    · simp [BQueue.pop, hr, ho] at h
    · simp [BQueue.pop, hr, ho] at h
      obtain ⟨rfl, rfl, rfl⟩ := h
      constructor
      · simp [BQueue.toList, hr, ho]
      · simp [BQueue.toList, hr, List.isEmpty_iff]
  · simp [BQueue.pop, hr] at h
    obtain ⟨rfl, rfl, rfl⟩ := h
    constructor
    · simp [BQueue.toList, hr]
    · simp [BQueue.toList, List.isEmpty_iff, List.append_eq_nil]

/-- Any successful trace of pushes and pops pops elements in push
order: the popped elements followed by the leftover contents are the
initial contents followed by the pushed elements. -/
theorem runOps_fifo_aux {α : Type} :
    ∀ (ops : List (QOp α)) (q q' : BQueue α) (popped : List α),
      runOps q ops = some (q', popped) →
      popped ++ q'.toList = q.toList ++ pushedList ops := by
  intro ops
  induction ops with
  | nil =>
    intro q q' popped h
    simp [runOps] at h
    obtain ⟨rfl, rfl⟩ := h
    simp [pushedList]
  | cons op rest ih =>
    intro q q' popped h
    cases op with
    | push x =>
      simp only [runOps] at h
      have hx := ih _ _ _ h
      rw [hx, BQueue.toList_push]
      simp [pushedList]
    | pop =>
      simp only [runOps] at h
      rcases hp : q.pop with _ | ⟨m, l, q₂⟩
      · rw [hp] at h; simp at h
      · rw [hp] at h
        dsimp only at h
        rcases hrest : runOps q₂ rest with _ | ⟨q₃, popped₂⟩
        · rw [hrest] at h; simp at h
        · rw [hrest] at h
          simp at h
          obtain ⟨rfl, rfl⟩ := h
          have h1 := (BQueue.pop_toList q m l q₂ hp).1
          have h2 := ih _ _ _ hrest
          simp [pushedList, h1, h2]

/-- C1: the mailbox `BQueue` behaves as a single FIFO queue across the
(ring, overflow) pair: `push` appends to the overflow deque exactly
when the ring is full or the overflow is already non-empty, else to
the ring; `pop` removes the ring head when the ring is non-empty, else
the overflow head; every successful trace of pushes and pops starting
from an empty queue pops elements in exactly push order; and the
`last` flag returned by `pop` is true exactly when both buffers are
empty after the removal. -/
theorem C1_mailbox_fifo (α : Type) :
    (∀ (q : BQueue α) (x : α), q.overflow ≠ [] ∨ q.full = true →
       q.push x = { q with overflow := q.overflow ++ [x] }) ∧
    (∀ (q : BQueue α) (x : α), q.overflow = [] → q.full = false →
       q.push x = { q with ring := q.ring ++ [x] }) ∧
    (∀ (q : BQueue α) (x : α) (rs : List α), q.ring = x :: rs →
       q.pop = some (x, rs.isEmpty && q.overflow.isEmpty, { q with ring := rs })) ∧
    (∀ (q : BQueue α) (y : α) (os : List α), q.ring = [] → q.overflow = y :: os →
       q.pop = some (y, os.isEmpty, { q with overflow := os })) ∧
    (∀ (q q' : BQueue α) (m : α) (l : Bool), q.pop = some (m, l, q') →
       q.toList = m :: q'.toList ∧ (l = true ↔ q'.toList = [])) ∧
    (∀ (cap : Nat) (ops : List (QOp α)) (q' : BQueue α) (popped : List α),
       runOps (BQueue.empty α cap) ops = some (q', popped) →
       popped ++ q'.toList = pushedList ops) := by
  refine ⟨?_, ?_, ?_, ?_, ?_, ?_⟩
  · intro q x h
    have hc : (!q.overflow.isEmpty || q.full) = true := by
      rcases h with h | h
      · rcases hov : q.overflow with _ | ⟨y, os⟩
        · exact absurd hov h
        · simp
      · simp [h]
    simp [BQueue.push, hc]
  · intro q x hov hfull
    simp [BQueue.push, hov, hfull]
  · intro q x rs hr
    simp [BQueue.pop, hr]
  · intro q y os hr hov
    simp [BQueue.pop, hr, hov]
  · intro q q' m l h
    exact BQueue.pop_toList q m l q' h
  · intro cap ops q' popped h
    have hx := runOps_fifo_aux ops (BQueue.empty α cap) q' popped h
    simpa [BQueue.empty, BQueue.toList] using hx

/-- Witness for C1 at concrete queues and a concrete trace. -/
theorem C1_mailbox_fifo_witness :
    BQueue.push (⟨1, [1], []⟩ : BQueue Nat) 2 = ⟨1, [1], [2]⟩ ∧
    BQueue.push (⟨2, [1], []⟩ : BQueue Nat) 2 = ⟨2, [1, 2], []⟩ ∧
    BQueue.pop (⟨2, [1, 2], [3]⟩ : BQueue Nat) = some (1, false, ⟨2, [2], [3]⟩) ∧
    BQueue.pop (⟨2, [], [3]⟩ : BQueue Nat) = some (3, true, ⟨2, [], []⟩) ∧
    (BQueue.toList (⟨2, [1], [2]⟩ : BQueue Nat) =
       1 :: BQueue.toList (⟨2, [], [2]⟩ : BQueue Nat) ∧
     (false = true ↔ BQueue.toList (⟨2, [], [2]⟩ : BQueue Nat) = [])) ∧
    [1, 2] ++ BQueue.toList (⟨1, [], []⟩ : BQueue Nat) =
      pushedList [QOp.push 1, QOp.push 2, QOp.pop, QOp.pop] :=
  ⟨(C1_mailbox_fifo Nat).1 _ 2 (Or.inr rfl),
   (C1_mailbox_fifo Nat).2.1 _ 2 rfl rfl,
   (C1_mailbox_fifo Nat).2.2.1 _ 1 [2] rfl,
   (C1_mailbox_fifo Nat).2.2.2.1 _ 3 [] rfl rfl,
   (C1_mailbox_fifo Nat).2.2.2.2.1 _ _ 1 false rfl,
   (C1_mailbox_fifo Nat).2.2.2.2.2 1 _ _ _ rfl⟩

/-- C2: the spec claims dispatch consults the length-512 handler cache
only when the message identity is below 512 and that larger identities
bypass the cache and go to the handler-table lookup; the source
indexes `handler_cache[id]` with no bounds check, so a message of
identity 512 performs an out-of-bounds access (undefined behavior,
modelled as `.error`) instead of a table lookup. -/
theorem C2_call_handler_out_of_bounds :
    call_handler (initDispatchState []) ⟨ACTOR_HANDLER_CACHE_SIZE, 0⟩ = .error () := rfl

/-- Evaluation of `call_handler` on a cache hit. -/
theorem call_handler_cache_hit (s : DispatchState) (m : DMsg)
    (hm : m.id < ACTOR_HANDLER_CACHE_SIZE) (f : Handler)
    (hc : s.handler_cache ⟨m.id, hm⟩ = some f) :
    call_handler s m = .ok (.invoked f, s) := by
  unfold call_handler
  rw [dif_pos hm]
  simp [hc]

/-- Evaluation of `call_handler` on a negative-flag hit. -/
theorem call_handler_neg_hit (s : DispatchState) (m : DMsg)
    (hm : m.id < ACTOR_HANDLER_CACHE_SIZE)
    (hc : s.handler_cache ⟨m.id, hm⟩ = none)
    (hn : s.dont_have_handler ⟨m.id, hm⟩ = true) :
    call_handler s m = .ok (.noHandler, s) := by
  unfold call_handler
  rw [dif_pos hm]
  simp [hc, hn]

/-- Evaluation of `call_handler` on a first miss that finds a table
entry: the entry is invoked and memoized. -/
theorem call_handler_miss_found (s : DispatchState) (m : DMsg)
    (hm : m.id < ACTOR_HANDLER_CACHE_SIZE)
    (hc : s.handler_cache ⟨m.id, hm⟩ = none)
    (hn : s.dont_have_handler ⟨m.id, hm⟩ = false)
    (f : Handler) (hf : findHandler s.handlers m.ty = some f) :
    call_handler s m = .ok (.invoked f,
      { s with handler_cache :=
          Function.update s.handler_cache ⟨m.id, hm⟩ (some f) }) := by
  unfold call_handler
  rw [dif_pos hm]
  simp [hc, hn, hf]

/-- Evaluation of `call_handler` on a first miss with no table entry:
the negative flag is set. -/
theorem call_handler_miss_absent (s : DispatchState) (m : DMsg)
    (hm : m.id < ACTOR_HANDLER_CACHE_SIZE)
    (hc : s.handler_cache ⟨m.id, hm⟩ = none)
    (hn : s.dont_have_handler ⟨m.id, hm⟩ = false)
    (hf : findHandler s.handlers m.ty = none) :
    call_handler s m = .ok (.noHandler,
      { s with dont_have_handler :=
          Function.update s.dont_have_handler ⟨m.id, hm⟩ true }) := by
  unfold call_handler
  rw [dif_pos hm]
  simp [hc, hn, hf]

/-- Unfolding one step of `dispatchMany`. -/
theorem dispatchMany_cons (s : DispatchState) (m : DMsg) (rest : List DMsg)
    (o : DispatchOutcome) (s' : DispatchState)
    (h : call_handler s m = .ok (o, s'))
    (os : List DispatchOutcome) (s'' : DispatchState)
    (hrest : dispatchMany s' rest = .ok (os, s'')) :
    dispatchMany s (m :: rest) = .ok (o :: os, s'') := by
  unfold dispatchMany
  rw [h]
  dsimp only
  rw [hrest]

/-- From any cache state consistent with the handler table, dispatching
in-bounds messages whose identity determines their runtime type yields
exactly the outcomes of the handler-table lookup. -/
theorem dispatchMany_eq_table (hs : List (TypeIndex × Handler)) :
    ∀ (ms : List DMsg) (cache : Fin ACTOR_HANDLER_CACHE_SIZE → Option Handler)
      (neg : Fin ACTOR_HANDLER_CACHE_SIZE → Bool),
      (∀ m ∈ ms, m.id < ACTOR_HANDLER_CACHE_SIZE) →
      (∀ m ∈ ms, ∀ (h : m.id < ACTOR_HANDLER_CACHE_SIZE) (f : Handler),
          cache ⟨m.id, h⟩ = some f → findHandler hs m.ty = some f) →
      (∀ m ∈ ms, ∀ (h : m.id < ACTOR_HANDLER_CACHE_SIZE),
          neg ⟨m.id, h⟩ = true → findHandler hs m.ty = none) →
      (∀ m ∈ ms, ∀ m' ∈ ms, m.id = m'.id → m.ty = m'.ty) →
      ∃ s', dispatchMany ⟨cache, neg, hs⟩ ms = .ok (ms.map (tableDispatch hs), s') := by
  intro ms
  induction ms with
  | nil =>
    intro cache neg _ _ _ _
    exact ⟨⟨cache, neg, hs⟩, rfl⟩
  | cons m rest ih =>
    intro cache neg hbound hcache hneg hinj
    have hM : m ∈ m :: rest := List.mem_cons_self m rest
    have hm : m.id < ACTOR_HANDLER_CACHE_SIZE := hbound m hM
    have hbound' : ∀ m' ∈ rest, m'.id < ACTOR_HANDLER_CACHE_SIZE :=
      fun m' hm' => hbound m' (List.mem_cons_of_mem m hm')
    have hinj' : ∀ m' ∈ rest, ∀ m'' ∈ rest, m'.id = m''.id → m'.ty = m''.ty :=
      fun m' hm' m'' hm'' =>
        hinj m' (List.mem_cons_of_mem m hm') m'' (List.mem_cons_of_mem m hm'')
    rcases hc : cache ⟨m.id, hm⟩ with _ | f
    · -- cache miss
      rcases hn : neg ⟨m.id, hm⟩ with _ | _
      · -- negative flag clear: table lookup
        rcases hf : findHandler hs m.ty with _ | f
        · -- table miss: set the negative flag
          have hch := call_handler_miss_absent ⟨cache, neg, hs⟩ m hm hc hn hf
          have hneg' : ∀ m' ∈ rest, ∀ (h' : m'.id < ACTOR_HANDLER_CACHE_SIZE),
              Function.update neg ⟨m.id, hm⟩ true ⟨m'.id, h'⟩ = true →
              findHandler hs m'.ty = none := by
            intro m' hm' h' hupd
            by_cases hii : (⟨m'.id, h'⟩ : Fin ACTOR_HANDLER_CACHE_SIZE) = ⟨m.id, hm⟩
            · have hid : m'.id = m.id := by
                simpa [Fin.mk.injEq] using hii
              have hty : m'.ty = m.ty :=
                hinj m' (List.mem_cons_of_mem m hm') m hM hid
              rw [hty]
              exact hf
            · rw [Function.update_noteq hii] at hupd
              exact hneg m' (List.mem_cons_of_mem m hm') h' hupd
          have hcache' : ∀ m' ∈ rest, ∀ (h' : m'.id < ACTOR_HANDLER_CACHE_SIZE)
              (f' : Handler), cache ⟨m'.id, h'⟩ = some f' →
              findHandler hs m'.ty = some f' :=
            fun m' hm' h' f' hcc =>
              hcache m' (List.mem_cons_of_mem m hm') h' f' hcc
          obtain ⟨s', hrec⟩ := ih cache (Function.update neg ⟨m.id, hm⟩ true)
            hbound' hcache' hneg' hinj'
          refine ⟨s', ?_⟩
          rw [List.map_cons, dispatchMany_cons _ m rest _ _ hch _ _ hrec]
          have ht : tableDispatch hs m = .noHandler := by
            unfold tableDispatch
            rw [hf]
          rw [ht]
        · -- table hit: invoke and memoize
          have hch := call_handler_miss_found ⟨cache, neg, hs⟩ m hm hc hn f hf
          have hcache' : ∀ m' ∈ rest, ∀ (h' : m'.id < ACTOR_HANDLER_CACHE_SIZE)
              (f' : Handler),
              Function.update cache ⟨m.id, hm⟩ (some f) ⟨m'.id, h'⟩ = some f' →
              findHandler hs m'.ty = some f' := by
            intro m' hm' h' f' hupd
            by_cases hii : (⟨m'.id, h'⟩ : Fin ACTOR_HANDLER_CACHE_SIZE) = ⟨m.id, hm⟩
            · rw [hii, Function.update_same] at hupd
              have hid : m'.id = m.id := by
                simpa [Fin.mk.injEq] using hii
              have hty : m'.ty = m.ty :=
                hinj m' (List.mem_cons_of_mem m hm') m hM hid
              rw [hty, hf]
              exact hupd.symm ▸ rfl
            · rw [Function.update_noteq hii] at hupd
              exact hcache m' (List.mem_cons_of_mem m hm') h' f' hupd
          have hneg' : ∀ m' ∈ rest, ∀ (h' : m'.id < ACTOR_HANDLER_CACHE_SIZE),
              neg ⟨m'.id, h'⟩ = true → findHandler hs m'.ty = none :=
            fun m' hm' h' hnn => hneg m' (List.mem_cons_of_mem m hm') h' hnn
          obtain ⟨s', hrec⟩ := ih (Function.update cache ⟨m.id, hm⟩ (some f)) neg
            hbound' hcache' hneg' hinj'
          refine ⟨s', ?_⟩
          rw [List.map_cons, dispatchMany_cons _ m rest _ _ hch _ _ hrec]
          have ht : tableDispatch hs m = .invoked f := by
            unfold tableDispatch
            rw [hf]
          rw [ht]
      · -- negative flag set: table is known to miss
        have hfind : findHandler hs m.ty = none := hneg m hM hm hn
        have hch := call_handler_neg_hit ⟨cache, neg, hs⟩ m hm hc hn
        have hcache' : ∀ m' ∈ rest, ∀ (h' : m'.id < ACTOR_HANDLER_CACHE_SIZE)
            (f' : Handler), cache ⟨m'.id, h'⟩ = some f' →
            findHandler hs m'.ty = some f' :=
          fun m' hm' h' f' hcc => hcache m' (List.mem_cons_of_mem m hm') h' f' hcc
        have hneg' : ∀ m' ∈ rest, ∀ (h' : m'.id < ACTOR_HANDLER_CACHE_SIZE),
            neg ⟨m'.id, h'⟩ = true → findHandler hs m'.ty = none :=
          fun m' hm' h' hnn => hneg m' (List.mem_cons_of_mem m hm') h' hnn
        obtain ⟨s', hrec⟩ := ih cache neg hbound' hcache' hneg' hinj'
        refine ⟨s', ?_⟩
        rw [List.map_cons, dispatchMany_cons _ m rest _ _ hch _ _ hrec]
        have ht : tableDispatch hs m = .noHandler := by
          unfold tableDispatch
          rw [hfind]
        rw [ht]
    · -- cache hit
      have hfind : findHandler hs m.ty = some f := hcache m hM hm f hc
      have hch := call_handler_cache_hit ⟨cache, neg, hs⟩ m hm f hc
      have hcache' : ∀ m' ∈ rest, ∀ (h' : m'.id < ACTOR_HANDLER_CACHE_SIZE)
          (f' : Handler), cache ⟨m'.id, h'⟩ = some f' →
          findHandler hs m'.ty = some f' :=
        fun m' hm' h' f' hcc => hcache m' (List.mem_cons_of_mem m hm') h' f' hcc
      have hneg' : ∀ m' ∈ rest, ∀ (h' : m'.id < ACTOR_HANDLER_CACHE_SIZE),
          neg ⟨m'.id, h'⟩ = true → findHandler hs m'.ty = none :=
        fun m' hm' h' hnn => hneg m' (List.mem_cons_of_mem m hm') h' hnn
      obtain ⟨s', hrec⟩ := ih cache neg hbound' hcache' hneg' hinj'
      refine ⟨s', ?_⟩
      rw [List.map_cons, dispatchMany_cons _ m rest _ _ hch _ _ hrec]
      have ht : tableDispatch hs m = .invoked f := by
        unfold tableDispatch
        rw [hfind]
      rw [ht]

/-- C3: starting from a freshly constructed actor, for in-bounds
message identities each of which corresponds to a single runtime type,
every dispatch through `call_handler` — the first one that fills the
cache entry and every later one served from the cache or the negative
flag — invokes exactly the handler that the handler-table lookup by
runtime type identity selects. -/
theorem C3_fast_path_equivalence (hs : List (TypeIndex × Handler)) (ms : List DMsg)
    (hbound : ∀ m ∈ ms, m.id < ACTOR_HANDLER_CACHE_SIZE)
    (hinj : ∀ m ∈ ms, ∀ m' ∈ ms, m.id = m'.id → m.ty = m'.ty) :
    ∃ s', dispatchMany (initDispatchState hs) ms =
      .ok (ms.map (tableDispatch hs), s') := by
  have h := dispatchMany_eq_table hs ms (fun _ => none) (fun _ => false)
    hbound (by intro m _ h f hcc; cases hcc) (by intro m _ h hnn; cases hnn) hinj
  simpa [initDispatchState] using h

/-- Witness for C3: a two-entry handler table, a repeated identity and
a second identity, dispatched from a fresh cache. -/
theorem C3_fast_path_equivalence_witness :
    ∃ s', dispatchMany (initDispatchState [(3, 7), (4, 8)])
        [⟨100, 3⟩, ⟨100, 3⟩, ⟨101, 4⟩, ⟨102, 9⟩, ⟨102, 9⟩] =
      .ok (([⟨100, 3⟩, ⟨100, 3⟩, ⟨101, 4⟩, ⟨102, 9⟩, ⟨102, 9⟩] : List DMsg).map
        (tableDispatch [(3, 7), (4, 8)]), s') :=
  C3_fast_path_equivalence [(3, 7), (4, 8)]
    [⟨100, 3⟩, ⟨100, 3⟩, ⟨101, 4⟩, ⟨102, 9⟩, ⟨102, 9⟩]
    (by decide) (by decide)

/-- C4: `Actor::send` on a terminated actor returns immediately with a
silent drop, leaving the message untouched; on a non-terminated actor
with an unset destination it stamps `is_fast := false`,
`last := false`, `sender`, `destination := this`, and pushes the
stamped message to the Group's mailbox when the actor is part of a
Group, else to the actor's own mailbox. -/
theorem C4_send_contract (a : ActorState) (m : AMsg) (s : Option ActorId) :
    (a.terminated = true → Actor.send a m s = .ok (.dropped m)) ∧
    (a.terminated = false → m.destination = none →
      Actor.send a m s = .ok (.enqueued
        (if a.is_part_of_group then .groupMailbox a.group else .own)
        { m with is_fast := false, last := false,
                 sender := s, destination := some a.self })) := by
  constructor
  · intro h
    simp [Actor.send, h]
  · intro ht hd
    rcases hg : a.is_part_of_group
    · simp [Actor.send, ht, hd, hg]
    · simp [Actor.send, ht, hd, hg]

/-- Witness for C4: a terminated actor drops; a terminated-free plain
actor enqueues to its own mailbox; a group member enqueues to the
group's mailbox. -/
theorem C4_send_contract_witness :
    Actor.send ⟨1, true, none, 0, false, none, false, none, false, false⟩
        ⟨100, none, none, false, false⟩ none =
      .ok (.dropped ⟨100, none, none, false, false⟩) ∧
    Actor.send ⟨1, false, none, 0, false, none, false, none, false, false⟩
        ⟨100, none, none, false, false⟩ (some 2) =
      .ok (.enqueued .own ⟨100, some 2, some 1, false, false⟩) ∧
    Actor.send ⟨1, false, none, 0, false, none, true, some 9, false, false⟩
        ⟨100, none, none, false, false⟩ (some 2) =
      .ok (.enqueued (.groupMailbox (some 9)) ⟨100, some 2, some 1, false, false⟩) :=
  ⟨(C4_send_contract _ _ _).1 rfl,
   (C4_send_contract _ _ _).2 rfl rfl,
   (C4_send_contract _ _ _).2 rfl rfl⟩

/-- Running a handler body's reply calls with `using_fast_send` set
leaves the reply slot holding the last reply, stamped with the callee
as sender. -/
theorem runReplies_fast :
    ∀ (rs : List AMsg) (a : ActorState), a.using_fast_send = true →
      runReplies a rs =
        .ok { a with reply_message := lastReply a.self rs a.reply_message } := by
  intro rs
  induction rs with
  | nil =>
    intro a h
    rfl
  | cons r rs' ih =>
    intro a h
    unfold runReplies Actor.reply
    rw [if_pos h]
    dsimp only
    rw [ih { a with reply_message := some { r with sender := some a.self } } h]
    rfl

/-- The reply-slot fold agrees with taking the last reply call,
sender-stamped. -/
theorem lastReply_eq_getLast (self : ActorId) :
    ∀ (rs : List AMsg) (cur : Option AMsg),
      lastReply self rs cur = match rs.getLast? with
        | none => cur
        | some r => some { r with sender := some self } := by
  intro rs
  induction rs with
  | nil => intro cur; rfl
  | cons r rs' ih =>
    intro cur
    rcases hl : rs' with _ | ⟨y, t⟩
    · simp [lastReply, List.getLast?_singleton]
    · rw [List.getLast?_cons_cons]
      rcases hg : (y :: t).getLast? with _ | z
      · exact absurd (List.getLast?_eq_none_iff.mp hg) (by simp)
      · have hx := ih (some { r with sender := some self })
        rw [hl] at hx
        rw [hg] at hx
        simpa [lastReply] using hx

/-- C5: `Actor::fast_send` (on a live actor, for a sender other than
the callee — fast-send-to-self is a fatal contract violation) invokes
the handler body in the caller's thread without enqueuing anything,
and returns exactly the last message the handler passed to `reply`,
stamped with the callee as sender, or the empty reply when the handler
made no `reply` call; `Actor::reply` outside a fast_send is a fatal
contract error when `reply_to` is unset and otherwise invokes an
ordinary asynchronous `send` of the reply to `reply_to`. -/
theorem C5_fast_send_reply_contract (a : ActorState) (m r : AMsg)
    (s : Option ActorId) (hreplies : List AMsg)
    (hterm : a.terminated = false) (hself : s ≠ some a.self) :
    Actor.fast_send a m s hreplies = .ok
      { state := { a with
          reply_message := hreplies.getLast?.map
            (fun r0 => { r0 with sender := some a.self })
          using_fast_send := true
          msg_cnt := a.msg_cnt + 1 }
        stamped := { m with sender := s, is_fast := true, last := true }
        dispatched := true
        reply := hreplies.getLast?.map
          (fun r0 => { r0 with sender := some a.self }) } ∧
    (a.using_fast_send = false → a.reply_to = none →
      Actor.reply a r = .error .noReturnAddress) ∧
    (∀ dest, a.using_fast_send = false → a.reply_to = some dest →
      Actor.reply a r = .ok (a, .sendCall dest r (some a.self))) := by
  refine ⟨?_, ?_, ?_⟩
  · unfold Actor.fast_send
    rw [if_neg hself]
    dsimp only
    rw [hterm]
    rw [if_neg (by simp : ¬false = true)]
    rw [runReplies_fast hreplies
      { a with terminated := false, reply_message := none,
               using_fast_send := true, msg_cnt := a.msg_cnt + 1 } rfl]
    dsimp only
    rw [lastReply_eq_getLast]
    rcases hg : hreplies.getLast? with _ | r0
    · rfl
    · rfl
  · intro hu hr
    simp [Actor.reply, hu, hr]
  · intro dest hu hr
    simp [Actor.reply, hu, hr]

/-- Witness for C5: a fast_send whose handler replies once, a reply
with no return address, and a reply with a return address. -/
theorem C5_fast_send_reply_contract_witness :
    Actor.fast_send ⟨1, false, some 5, 3, false, none, false, none, false, false⟩
        ⟨100, none, none, false, false⟩ (some 2) [⟨7, none, none, false, false⟩] =
      .ok { state := ⟨1, false, some 5, 4, true,
              some ⟨7, some 1, none, false, false⟩, false, none, false, false⟩,
            stamped := ⟨100, some 2, none, true, true⟩,
            dispatched := true,
            reply := some ⟨7, some 1, none, false, false⟩ } ∧
    Actor.reply ⟨1, false, none, 3, false, none, false, none, false, false⟩
        ⟨8, none, none, false, false⟩ = .error .noReturnAddress ∧
    Actor.reply ⟨1, false, some 5, 3, false, none, false, none, false, false⟩
        ⟨8, none, none, false, false⟩ =
      .ok (⟨1, false, some 5, 3, false, none, false, none, false, false⟩,
           .sendCall 5 ⟨8, none, none, false, false⟩ (some 1)) :=
  ⟨(C5_fast_send_reply_contract
      ⟨1, false, some 5, 3, false, none, false, none, false, false⟩
      ⟨100, none, none, false, false⟩ ⟨8, none, none, false, false⟩
      (some 2) [⟨7, none, none, false, false⟩] rfl (by decide)).1,
   (C5_fast_send_reply_contract
      ⟨1, false, none, 3, false, none, false, none, false, false⟩
      ⟨100, none, none, false, false⟩ ⟨8, none, none, false, false⟩
      (some 2) [] rfl (by decide)).2.1 rfl rfl,
   (C5_fast_send_reply_contract
      ⟨1, false, some 5, 3, false, none, false, none, false, false⟩
      ⟨100, none, none, false, false⟩ ⟨8, none, none, false, false⟩
      (some 2) [] rfl (by decide)).2.2 5 rfl rfl⟩

/-- C10 counterexample: on a terminated actor, a fast_send whose
sender is the actor itself does not return the empty reply — the
`assert(this != sender)` contract violation fires first, so the claim
fails for that sender. -/
theorem C10_fast_send_terminated_counterexample :
    Actor.fast_send ⟨7, true, none, 0, false, none, false, none, false, false⟩
        ⟨5, none, none, false, false⟩ (some 7) [] = .error .selfFastSend := rfl

/-- C10 (amended): for every terminated actor, message, handler body
and sender other than the actor itself, fast_send returns the empty
reply without dispatching, while still stamping the message
(`sender`, `is_fast := true`, `last := true`), clearing the reply slot
and incrementing the message counter. -/
theorem C10_fast_send_terminated_amended (a : ActorState) (m : AMsg)
    (s : Option ActorId) (hreplies : List AMsg)
    (hterm : a.terminated = true) (hself : s ≠ some a.self) :
    Actor.fast_send a m s hreplies = .ok
      { state := { a with
          reply_message := none
          using_fast_send := true
          msg_cnt := a.msg_cnt + 1 }
        stamped := { m with sender := s, is_fast := true, last := true }
        dispatched := false
        reply := none } := by
  unfold Actor.fast_send
  rw [if_neg hself]
  dsimp only
  rw [hterm]
  rfl

/-- Witness for the amended C10: a terminated actor, a non-self
sender, and a handler body that would have replied — nothing is
dispatched and the counter still moves from 0 to 1. -/
theorem C10_fast_send_terminated_amended_witness :
    Actor.fast_send ⟨7, true, none, 0, false, none, false, none, false, false⟩
        ⟨5, none, none, false, false⟩ (some 3) [⟨9, none, none, false, false⟩] =
      .ok { state := ⟨7, true, none, 1, true, none, false, none, false, false⟩,
            stamped := ⟨5, some 3, none, true, true⟩,
            dispatched := false,
            reply := none } :=
  C10_fast_send_terminated_amended
    ⟨7, true, none, 0, false, none, false, none, false, false⟩
    ⟨5, none, none, false, false⟩ (some 3) [⟨9, none, none, false, false⟩]
    rfl (by decide)

/-- C6: the worker loop runs the `init` hook and then repeatedly pops,
sets `reply_to := m.sender`, dispatches, and exits after a message
exactly when that message had identity 5 (Shutdown) or the
`terminated` flag is set after its dispatch; on exit `terminated` is
true and the `end` hook has run; and no message popped after a
Shutdown is ever dispatched. -/
theorem C6_worker_loop_shutdown (d : ActorState → AMsg → ActorState) :
    (∀ (a : ActorState) (q : List AMsg), (workerLoop d a q).exited = true →
       (workerLoop d a q).state.terminated = true ∧
       (workerLoop d a q).state.end_ran = true) ∧
    (∀ (a : ActorState) (m : AMsg) (rest : List AMsg),
       ((m.id == 5 || (dispatchStep d a m rest).terminated) = true →
          workerLoop d a (m :: rest) =
            { state := { dispatchStep d a m rest with
                terminated := true, end_ran := true },
              dispatched := [m], exited := true }) ∧
       ((m.id == 5 || (dispatchStep d a m rest).terminated) = false →
          workerLoop d a (m :: rest) =
            { workerLoop d (dispatchStep d a m rest) rest with
              dispatched :=
                m :: (workerLoop d (dispatchStep d a m rest) rest).dispatched })) ∧
    (∀ (a : ActorState) (q : List AMsg) (i : Nat) (hi : i < q.length),
       (q.get ⟨i, hi⟩).id = 5 → (workerLoop d a q).dispatched.length ≤ i + 1) ∧
    (∀ (a : ActorState) (q : List AMsg),
       actorRun d a q = workerLoop d { a with init_ran := true } q) := by
  refine ⟨?_, ?_, ?_, ?_⟩
  · intro a q
    induction q generalizing a with
    | nil =>
      intro h
      simp [workerLoop] at h
    | cons m rest ih =>
      intro h
      by_cases hc : (m.id == 5 || (dispatchStep d a m rest).terminated) = true
      · simp [workerLoop, hc]
      · rw [Bool.not_eq_true] at hc
        simp only [workerLoop, hc] at h ⊢
        simp only [Bool.false_eq_true, if_false] at h ⊢
        exact ih (dispatchStep d a m rest) h
  · intro a m rest
    constructor
    · intro hc
      simp [workerLoop, hc]
    · intro hc
      simp only [workerLoop, hc]
      simp
  · intro a q
    induction q generalizing a with
    | nil =>
      intro i hi
      simp at hi
    | cons m rest ih =>
      intro i hi hid
      cases i with
      | zero =>
        have hm5 : (m.id == 5) = true := by
          simp only [List.get] at hid
          simp [hid]
        have hc : (m.id == 5 || (dispatchStep d a m rest).terminated) = true := by
          simp [hm5]
        simp [workerLoop, hc]
      | succ j =>
        by_cases hc : (m.id == 5 || (dispatchStep d a m rest).terminated) = true
        · simp [workerLoop, hc]
        · rw [Bool.not_eq_true] at hc
          have hj : j < rest.length := by
            simp [List.length_cons] at hi
            omega
          have hg : (rest.get ⟨j, hj⟩).id = 5 := by
            simpa [List.get_cons_succ] using hid
          have hrec := ih (dispatchStep d a m rest) j hj hg
          simp only [workerLoop, hc, Bool.false_eq_true, if_false]
          simp only [List.length_cons]
          omega
  · intro a q
    rfl

/-- Witness for C6: a Shutdown (identity 5) message with an inert
handler effect; the loop dispatches it, exits, marks `terminated`,
runs `end`, and never dispatches the message queued behind it. -/
theorem C6_worker_loop_shutdown_witness :
    ((workerLoop (fun a _ => a)
        ⟨1, false, none, 0, false, none, false, none, false, false⟩
        [⟨5, none, none, false, false⟩]).state.terminated = true ∧
     (workerLoop (fun a _ => a)
        ⟨1, false, none, 0, false, none, false, none, false, false⟩
        [⟨5, none, none, false, false⟩]).state.end_ran = true) ∧
    workerLoop (fun a _ => a)
        ⟨1, false, none, 0, false, none, false, none, false, false⟩
        [⟨5, none, none, false, false⟩, ⟨9, none, none, false, false⟩] =
      { state := ⟨1, true, none, 1, false, none, false, none, false, true⟩,
        dispatched := [⟨5, none, none, false, false⟩], exited := true } ∧
    (workerLoop (fun a _ => a)
        ⟨1, false, none, 0, false, none, false, none, false, false⟩
        [⟨5, none, none, false, false⟩, ⟨9, none, none, false, false⟩]).dispatched.length ≤ 0 + 1 ∧
    actorRun (fun a _ => a)
        ⟨1, false, none, 0, false, none, false, none, false, false⟩ [] =
      workerLoop (fun a _ => a)
        ⟨1, false, none, 0, false, none, false, none, true, false⟩ [] :=
  ⟨(C6_worker_loop_shutdown (fun a _ => a)).1 _ _ rfl,
   ((C6_worker_loop_shutdown (fun a _ => a)).2.1 _
      ⟨5, none, none, false, false⟩ [⟨9, none, none, false, false⟩]).1 rfl,
   (C6_worker_loop_shutdown (fun a _ => a)).2.2.1 _ _ 0 (by decide) rfl,
   (C6_worker_loop_shutdown (fun a _ => a)).2.2.2 _ _⟩

/-- C7: when a Group receives Start from a sender other than itself it
walks its members in insertion order, running `member.init()` and then
delivering Start via the member's fast_send with the Group as sender;
on Shutdown from a sender other than itself it delivers Shutdown via
fast_send with the Group as sender and then runs `member.end()`, in
insertion order; and `Group::add` appends to the insertion-ordered
member list. -/
theorem C7_group_start_shutdown_fanout (g : GroupState) (msender : Option ActorId)
    (h : msender ≠ some g.self) :
    Group.start_handler g msender =
      g.members.flatMap
        (fun a => [GroupEvent.memberInit a, GroupEvent.fastSendStart a g.self]) ∧
    Group.shutdown_handler g msender =
      g.members.flatMap
        (fun a => [GroupEvent.fastSendShutdown a g.self, GroupEvent.memberEnd a]) ∧
    (∀ a, (Group.add g a).members = g.members ++ [a]) := by
  refine ⟨?_, ?_, fun a => rfl⟩
  · unfold Group.start_handler
    rw [if_pos h]
  · unfold Group.shutdown_handler
    rw [if_pos h]

/-- Witness for C7: a three-member group, Start from no sender,
Shutdown from a foreign sender, and an add. -/
theorem C7_group_start_shutdown_fanout_witness :
    Group.start_handler ⟨10, [1, 2, 3]⟩ none =
      ([1, 2, 3] : List ActorId).flatMap
        (fun a => [GroupEvent.memberInit a, GroupEvent.fastSendStart a 10]) ∧
    Group.shutdown_handler ⟨10, [1, 2, 3]⟩ (some 4) =
      ([1, 2, 3] : List ActorId).flatMap
        (fun a => [GroupEvent.fastSendShutdown a 10, GroupEvent.memberEnd a]) ∧
    (Group.add ⟨10, [1, 2]⟩ 3).members = [1, 2] ++ [3] :=
  ⟨(C7_group_start_shutdown_fanout ⟨10, [1, 2, 3]⟩ none (by decide)).1,
   (C7_group_start_shutdown_fanout ⟨10, [1, 2, 3]⟩ (some 4) (by decide)).2.1,
   (C7_group_start_shutdown_fanout ⟨10, [1, 2]⟩ none (by decide)).2.2 3⟩

/-- C8: `Manager::manage` records the requested scheduling class in
`priority_type`, but `Manager::init` issues the scheduling call with
the hard-coded class `SCHED_FIFO` whenever `priority > 0` — the
recorded class is ignored (here: a round-robin request still yields a
FIFO call), while a failure of the call is only logged
(`.loggedFailure`, never fatal) and no call is made when
`priority = 0`. -/
theorem C8_sched_class_ignored :
    (Manager.manageRecord 50 SCHED_RR).priority_type = SCHED_RR ∧
    Manager.initSchedCall (Manager.manageRecord 50 SCHED_RR) =
      some (SCHED_FIFO, 50) ∧
    SCHED_FIFO = 1 ∧ SCHED_RR = 2 ∧
    Manager.schedOutcome (Manager.manageRecord 50 SCHED_RR) false =
      .loggedFailure ∧
    Manager.schedOutcome (Manager.manageRecord 50 SCHED_RR) true = .applied ∧
    Manager.initSchedCall (Manager.manageRecord 0 SCHED_FIFO) = none :=
  ⟨rfl, rfl, rfl, rfl, rfl, rfl, rfl⟩

/-- C9: for every parsed envelope the Receiver performs exactly one
action: an unknown receiver name with a sender present yields a Reject
(identity 9) whose reason reports the actor was not found and whose
`rejected_by` is the unknown receiver name; a known receiver with an
unregistered wire name and a sender present yields a Reject reporting
the unknown message type; when both lookups succeed the decoded
message is delivered by exactly one asynchronous send to the local
target; and a failed lookup with no sender drops the frame with no
Reject. -/
theorem C9_receiver_reject_contract (registry : List (String × ActorId))
    (registered : List String) (e : Envelope) :
    (∀ sa se, lookupActor registry e.receiver = none → e.sender = some (sa, se) →
       handle_remote_message registry registered e =
         .sendRejectTo se sa ⟨e.message_type,
           "Actor \x27" ++ e.receiver ++ "\x27 not found", e.receiver⟩) ∧
    (∀ t sa se, lookupActor registry e.receiver = some t →
       deserializeRegistered registered e.message_type = false →
       e.sender = some (sa, se) →
       handle_remote_message registry registered e =
         .sendRejectTo se sa ⟨e.message_type,
           "Unknown message type: " ++ e.message_type, e.receiver⟩) ∧
    (∀ t, lookupActor registry e.receiver = some t →
       deserializeRegistered registered e.message_type = true →
       handle_remote_message registry registered e =
         .deliverTo t e.message_type e.payload e.sender.isSome) ∧
    (e.sender = none →
       (lookupActor registry e.receiver = none ∨
        deserializeRegistered registered e.message_type = false) →
       handle_remote_message registry registered e = .dropFrame) ∧
    (∀ rej : RejectMsgRec, rej.get_message_id = 9) := by
  refine ⟨?_, ?_, ?_, ?_, fun _ => rfl⟩
  · intro sa se hl hsend
    simp [handle_remote_message, hl, hsend]
  · intro t sa se hl hd hsend
    simp [handle_remote_message, hl, hd, hsend]
  · intro t hl hd
    simp [handle_remote_message, hl, hd]
  · intro hsend hfail
    rcases hfail with hl | hd
    · simp [handle_remote_message, hl, hsend]
    · rcases hl : lookupActor registry e.receiver with _ | t
      · simp [handle_remote_message, hl, hsend]
      · simp [handle_remote_message, hl, hd, hsend]

/-- Witness for C9: a one-actor registry and a one-type serialization
registry, with one envelope for each of the four behaviors. -/
theorem C9_receiver_reject_contract_witness :
    handle_remote_message [("pong", 3)] ["Ping"]
        ⟨"ghost", "Ping", some ("ping", "tcp"), "p"⟩ =
      .sendRejectTo "tcp" "ping"
        ⟨"Ping", "Actor \x27" ++ "ghost" ++ "\x27 not found", "ghost"⟩ ∧
    handle_remote_message [("pong", 3)] ["Ping"]
        ⟨"pong", "Blob", some ("ping", "tcp"), "p"⟩ =
      .sendRejectTo "tcp" "ping"
        ⟨"Blob", "Unknown message type: " ++ "Blob", "pong"⟩ ∧
    handle_remote_message [("pong", 3)] ["Ping"]
        ⟨"pong", "Ping", some ("ping", "tcp"), "p"⟩ =
      .deliverTo 3 "Ping" "p" true ∧
    handle_remote_message [("pong", 3)] ["Ping"]
        ⟨"ghost", "Ping", none, "p"⟩ = .dropFrame ∧
    RejectMsgRec.get_message_id ⟨"Ping", "not found", "ghost"⟩ = 9 :=
  ⟨(C9_receiver_reject_contract [("pong", 3)] ["Ping"]
      ⟨"ghost", "Ping", some ("ping", "tcp"), "p"⟩).1 "ping" "tcp"
      (by decide) rfl,
   (C9_receiver_reject_contract [("pong", 3)] ["Ping"]
      ⟨"pong", "Blob", some ("ping", "tcp"), "p"⟩).2.1 3 "ping" "tcp"
      (by decide) (by decide) rfl,
   (C9_receiver_reject_contract [("pong", 3)] ["Ping"]
      ⟨"pong", "Ping", some ("ping", "tcp"), "p"⟩).2.2.1 3
      (by decide) (by decide),
   (C9_receiver_reject_contract [("pong", 3)] ["Ping"]
      ⟨"ghost", "Ping", none, "p"⟩).2.2.2.1 rfl (Or.inl (by decide)),
   (C9_receiver_reject_contract [("pong", 3)] ["Ping"]
      ⟨"ghost", "Ping", none, "p"⟩).2.2.2.2 ⟨"Ping", "not found", "ghost"⟩⟩
